import Mathlib

/-!
A shallow embedding of the sleeper-dashboard client (`src/script.js`) and of
its serverless player-directory proxy (`src/api/get-players.js`).

JavaScript strings are modelled as Lean `String`; the string operations used
by the dashboard (`toLowerCase`, `trim`, `startsWith`, `includes`,
`localeCompare`) are defined below over the underlying character list so that
they evaluate by kernel reduction.  JavaScript numbers that the code only
ever adds, divides and compares are modelled as `Nat`/`Int`/`ℚ`.  A `fetch`
call is modelled by a `FetchOutcome` value: either a network failure (the
promise rejects) or a response carrying its HTTP-ok flag and the result of
parsing its body (`none` = the JSON parse threw).  `Array.prototype.sort`
with a comparator is modelled by `List.insertionSort` of the comparator's
`≤ 0` relation: JavaScript mandates a stable sort, and for the consistent
comparators used here every stable sort produces the same output.
-/

namespace Sleeper

/-- JS `s.toLowerCase()` (ASCII case folding, as `Char.toLower`). -/
def jsToLower (s : String) : String := String.mk (s.data.map Char.toLower)

/-- JS `s.trim()`: strip whitespace from both ends. -/
def jsTrim (s : String) : String :=
  String.mk (((s.data.dropWhile Char.isWhitespace).reverse.dropWhile Char.isWhitespace).reverse)

/-- JS `s.startsWith(pre)`. -/
def jsStartsWith (s pre : String) : Bool := pre.data.isPrefixOf s.data

/-- JS `s.includes(sub)`: substring containment. -/
def jsIncludes (s sub : String) : Bool := decide (sub.data <:+: s.data)

/-- Code-unit lexicographic `<` on character lists. -/
def charListLt : List Char → List Char → Bool
  | [], [] => false
  | [], _ :: _ => true
  | _ :: _, [] => false
  | c :: cs, d :: ds => (c.toNat < d.toNat) || ((c.toNat == d.toNat) && charListLt cs ds)

/-- Model of JS `a.localeCompare(b)` as code-unit comparison (the dashboard
only uses its sign for ordering player names). -/
def localeCompare (s t : String) : Int :=
  if charListLt s.data t.data then -1 else if charListLt t.data s.data then 1 else 0

/-! ## Data model (the record shapes the claims need, from the Sleeper API
payloads as the code reads them; optional fields are `Option`) -/

/-- A player-directory entry (`allPlayers[player_id]`). -/
structure Player where
  player_id : String
  first_name : Option String
  last_name : Option String
  full_name : Option String
  position : Option String
  team : Option String
  age : Option Nat
  status : Option String
deriving DecidableEq, Repr

/-- The player directory: the JSON dictionary keyed by player id. -/
abbrev PlayersMap := List (String × Player)

/-- A league roster (`/league/<id>/rosters` entry restricted to the fields
the claims touch). -/
structure Roster where
  roster_id : Nat
  owner_id : String
  players : List String
  starters : List String
deriving DecidableEq, Repr

/-- A league user. -/
structure User where
  user_id : String
  display_name : String
deriving DecidableEq, Repr

/-- League metadata (`/league/<id>`). -/
structure League where
  name : String
  num_teams : Nat
deriving DecidableEq, Repr

/-- Draft metadata (`/draft/<id>`). -/
structure Draft where
  draft_id : String
  status : String
deriving DecidableEq, Repr

/-- One draft pick (`/draft/<id>/picks` entry). -/
structure DraftPick where
  pick_no : Nat
  roster_id : Nat
  player_id : String
deriving DecidableEq, Repr

/-- One league transaction (only `created` matters to the claims). -/
structure Transaction where
  transaction_id : String
  created : Nat
deriving DecidableEq, Repr

/-- One week-`week` matchup entry. -/
structure Matchup where
  roster_id : Nat
  matchup_id : Nat
  points : ℚ
deriving DecidableEq, Repr

/-- One ESPN news article. -/
structure Article where
  headline : String
deriving DecidableEq, Repr

/-! ## Remote Data Gateway (src/script.js fetch wrappers) -/

/-- Outcome of one `fetch`: a rejected promise (network failure) or a
response with its `response.ok` flag and the parsed body (`none` when
`response.json()` throws). -/
inductive FetchOutcome (α : Type) where
  | netError : FetchOutcome α
  | response (ok : Bool) (body : Option α) : FetchOutcome α
deriving DecidableEq, Repr

/-- `fetchLeagueDetails` (script.js): checks `response.ok`, parses, returns
`null` from the catch block on any thrown error. -/
def fetchLeagueDetails (r : FetchOutcome League) : Option League :=
  match r with
  | .netError => none
  | .response ok body => if ok then (match body with | some l => some l | none => none) else none

/-- `fetchRosters` (script.js): checks `response.ok`; `[]` on any error. -/
def fetchRosters (r : FetchOutcome (List Roster)) : List Roster :=
  match r with
  | .netError => []
  | .response ok body => if ok then (match body with | some v => v | none => []) else []

/-- `fetchUsers` (script.js): checks `response.ok`; `[]` on any error. -/
def fetchUsers (r : FetchOutcome (List User)) : List User :=
  match r with
  | .netError => []
  | .response ok body => if ok then (match body with | some v => v | none => []) else []

/-- `fetchDraftDetails` (script.js): short-circuits to `null` without a draft
id.  The try block parses `response.json()` and returns it directly; it never
reads `response.ok`, so a non-2xx response with a parseable JSON body is
returned as if it were data.  Only a rejected fetch or a parse error reaches
the catch block (`null`). -/
def fetchDraftDetails (draftId : Option String) (r : FetchOutcome Draft) : Option Draft :=
  match draftId with
  | none => none
  | some _ =>
    match r with
    | .netError => none
    | .response _ok body => body

/-- `fetchDraftPicks` (script.js): like `fetchDraftDetails`, no
`response.ok` check; `[]` from the catch block, and without a draft id. -/
def fetchDraftPicks (draftId : Option String) (r : FetchOutcome (List DraftPick)) :
    List DraftPick :=
  match draftId with
  | none => []
  | some _ =>
    match r with
    | .netError => []
    | .response _ok body => match body with | some v => v | none => []

/-- `fetchMatchups(week)` (script.js): checks `response.ok`; `[]` on any
error (the `matchups || []` null-coalesce is folded into the parse model). -/
def fetchMatchups (_week : Nat) (r : FetchOutcome (List Matchup)) : List Matchup :=
  match r with
  | .netError => []
  | .response ok body => if ok then (match body with | some v => v | none => []) else []

/-- `fetchTransactions(week)` (script.js): checks `response.ok`; `[]` on any
error (the `transactions || []` null-coalesce is folded into the parse
model). -/
def fetchTransactions (_week : Nat) (r : FetchOutcome (List Transaction)) : List Transaction :=
  match r with
  | .netError => []
  | .response ok body => if ok then (match body with | some v => v | none => []) else []

/-- The network leg of `fetchAllPlayers` (script.js): checks `response.ok`,
returns the parsed directory, `{}` from the catch block on any error. -/
def fetchAllPlayersNetwork (r : FetchOutcome PlayersMap) : PlayersMap :=
  match r with
  | .netError => []
  | .response ok body => if ok then (match body with | some v => v | none => []) else []

/-- The network leg of `fetchNews` (script.js): checks `response.ok`, returns
`newsData.articles`, `[]` from the catch block on any error. -/
def fetchNewsNetwork (r : FetchOutcome (List Article)) : List Article :=
  match r with
  | .netError => []
  | .response ok body => if ok then (match body with | some v => v | none => []) else []

/-! ## Cached Fetch Policy (script.js `fetchAllPlayers` / `fetchNews`)

The IndexedDB reads are passed in as `Option` values (`none` = the key is
absent or the cache read failed).  The result pairs the returned payload with
whether a network fetch was performed.  The JS cache-hit test is
`if (cachedData) return cachedData;` — an object or array read back from the
store is truthy even when it is empty (`\x7b\x7d` or `[]`), so presence alone
decides the hit. -/

/-- `CACHE_DURATION` for the player directory: 24 hours in ms. -/
def playersCacheDuration : Nat := 24 * 60 * 60 * 1000

/-- `NEWS_CACHE_DURATION`: 15 minutes in ms. -/
def newsCacheDuration : Nat := 15 * 60 * 1000

/-- `fetchAllPlayers` (script.js): timestamp-then-data cache read over the
network fetch. -/
def fetchAllPlayers (now : Nat) (cachedTimestamp : Option Nat) (cachedData : Option PlayersMap)
    (net : FetchOutcome PlayersMap) : PlayersMap × Bool :=
  match cachedTimestamp with
  | some ts =>
    if now - ts < playersCacheDuration then
      match cachedData with
      | some d => (d, false)
      | none => (fetchAllPlayersNetwork net, true)
    else (fetchAllPlayersNetwork net, true)
  | none => (fetchAllPlayersNetwork net, true)

/-- `fetchNews` (script.js): same policy with the news TTL. -/
def fetchNews (now : Nat) (cachedTimestamp : Option Nat) (cachedData : Option (List Article))
    (net : FetchOutcome (List Article)) : List Article × Bool :=
  match cachedTimestamp with
  | some ts =>
    if now - ts < newsCacheDuration then
      match cachedData with
      | some d => (d, false)
      | none => (fetchNewsNetwork net, true)
    else (fetchNewsNetwork net, true)
  | none => (fetchNewsNetwork net, true)

/-! ## Edge proxy (src/api/get-players.js) -/

/-- Module state of the serverless function. -/
structure ProxyState where
  cachedPlayers : Option PlayersMap
  lastFetchTimestamp : Nat
deriving DecidableEq, Repr

/-- What the proxy put in the response body. -/
inductive ProxyBody where
  | playersBody (players : PlayersMap)
  | emptyBody
  | errorBody
deriving DecidableEq, Repr

/-- `response.ok`: HTTP status in [200, 300). -/
def statusOk (status : Nat) : Bool := decide (200 ≤ status) && decide (status < 300)

/-- Upstream `fetch` outcome seen by the proxy, keeping the raw status. -/
inductive UpstreamOutcome where
  | netError
  | httpResponse (status : Nat) (body : Option PlayersMap)
deriving DecidableEq, Repr

/-- `handler` (api/get-players.js): OPTIONS short-circuit, in-memory 24h
cache, otherwise fetch upstream; every thrown error (non-ok status, network
failure, parse failure) lands in the single catch block, which responds
`500` with a JSON error body.  Returns (status, body) and the new module
state. -/
def handler (reqMethod : String) (st : ProxyState) (now : Nat) (upstream : UpstreamOutcome) :
    (Nat × ProxyBody) × ProxyState :=
  if reqMethod = "OPTIONS" then ((200, .emptyBody), st)
  else if st.cachedPlayers.isSome ∧ now - st.lastFetchTimestamp < playersCacheDuration then
    ((200, .playersBody (st.cachedPlayers.getD [])), st)
  else
    match upstream with
    | .netError => ((500, .errorBody), st)
    | .httpResponse status body =>
      if statusOk status then
        match body with
        | some players => ((200, .playersBody players), ⟨some players, now⟩)
        | none => ((500, .errorBody), st)
      else ((500, .errorBody), st)

/-! ## Player age utilities (script.js) -/

/-- The four age bands plus the unknown sentinel. -/
inductive AgeCategory where
  | young
  | prime
  | veteran
  | old
  | unknown
deriving DecidableEq, Repr

/-- `getAgeCategory` (script.js).  The JS guard `!age || age === 'N/A'` is
true for a missing age and for the number 0 (both falsy); the string
sentinel case cannot arise for a numeric age, and `parseInt` of a number is
that number. -/
def getAgeCategory (age : Option Nat) : AgeCategory :=
  match age with
  | none => .unknown
  | some a =>
    if a = 0 then .unknown
    else if a < 25 then .young
    else if a ≤ 28 then .prime
    else if a ≤ 31 then .veteran
    else .old

/-- `getAgeCategoryColor` (script.js): fixed table keyed by the category. -/
def getAgeCategoryColor (age : Option Nat) : String :=
  match getAgeCategory age with
  | .young => "#22c55e"
  | .prime => "#3b82f6"
  | .veteran => "#f59e0b"
  | .old => "#ef4444"
  | .unknown => "#6b7280"

/-- `getAgeCategoryLabel` (script.js): fixed table keyed by the category. -/
def getAgeCategoryLabel (age : Option Nat) : String :=
  match getAgeCategory age with
  | .young => "Dynasty Asset"
  | .prime => "Peak Performance"
  | .veteran => "Productive Vet"
  | .old => "Declining Asset"
  | .unknown => "Unknown Age"

/-- JS `Math.round`: round half toward positive infinity. -/
def jsRound (x : ℚ) : ℤ := ⌊x + 1/2⌋

/-- `calculateTeamAverageAge` (script.js): filter to players whose `age` is
truthy (present and nonzero), return the string sentinel (`none` here) when
no player qualifies, else the mean rounded to one decimal place
(`Math.round(avgAge * 10) / 10`). -/
def calculateTeamAverageAge (teamPlayers : List Player) : Option ℚ :=
  let playersWithAges := teamPlayers.filter fun p =>
    match p.age with | some a => decide (a ≠ 0) | none => false
  if playersWithAges.length = 0 then none
  else
    let totalAge : ℚ := playersWithAges.foldl (fun sum p => sum + ((p.age.getD 0 : Nat) : ℚ)) 0
    let avgAge := totalAge / (playersWithAges.length : ℚ)
    some ((jsRound (avgAge * 10) : ℚ) / 10)

/-! ## Standings win percentage (script.js `renderStandings`) -/

/-- The win-percentage computed per roster in `renderStandings`:
`totalGames > 0 ? (wins + ties * 0.5) / totalGames : 0`. -/
def winPct (wins losses ties : Nat) : ℚ :=
  let totalGames := wins + losses + ties
  if 0 < totalGames then ((wins : ℚ) + (ties : ℚ) * (1/2)) / (totalGames : ℚ) else 0

/-! ## Transactions aggregation (script.js) -/

/-- `fetchAllRecentTransactions` (script.js): fetch weeks 0–10, flatten, sort
by `created` descending (`(a, b) => b.created - a.created`).  `net w` is the
fetch outcome for week `w`. -/
def fetchAllRecentTransactions (net : Nat → FetchOutcome (List Transaction)) :
    List Transaction :=
  let weeks := List.range 11
  let allTransactions := (weeks.map fun w => fetchTransactions w (net w)).flatten
  allTransactions.insertionSort (fun a b => b.created ≤ a.created)

/-! ## Picks-by-round grouping (script.js `displayPlayersByRound`) -/

/-- `Math.ceil(pick.pick_no / numTeams)` for positive team counts. -/
def pickRound (numTeams : Nat) (p : DraftPick) : Nat :=
  (p.pick_no + numTeams - 1) / numTeams

/-- One step of filling the JS `Map`: append the pick to its round's list,
creating the round entry at the end on first sight (JS `Map` preserves
insertion order). -/
def insertPick (m : List (Nat × List DraftPick)) (r : Nat) (p : DraftPick) :
    List (Nat × List DraftPick) :=
  match m with
  | [] => [(r, [p])]
  | (k, ps) :: rest =>
    if k = r then (k, ps ++ [p]) :: rest else (k, ps) :: insertPick rest r p

/-- `draftPicks.sort((a, b) => a.pick_no - b.pick_no)`. -/
def sortByPickNo (picks : List DraftPick) : List DraftPick :=
  picks.insertionSort (fun a b => a.pick_no ≤ b.pick_no)

/-- The `picksByRound` map of `displayPlayersByRound`: picks sorted by
`pick_no` are folded into the round map. -/
def picksByRound (numTeams : Nat) (picks : List DraftPick) : List (Nat × List DraftPick) :=
  (sortByPickNo picks).foldl (fun m p => insertPick m (pickRound numTeams p) p) []

/-- The order in which `displayPlayersByRound` renders picks: round keys
sorted ascending (`.sort((a, b) => a - b)`), each round's pick list in map
order. -/
def playersByRoundOrder (numTeams : Nat) (picks : List DraftPick) : List DraftPick :=
  let m := picksByRound numTeams picks
  ((m.map Prod.fst).insertionSort (fun a b => a ≤ b)).flatMap fun r => (m.lookup r).getD []

/-! ## Player search (script.js `PlayerSearch`) -/

/-- `getPlayerSearchName`: `full_name` when truthy, else
`` `${first_name} ${last_name}`.trim() ``, lower-cased. -/
def getPlayerSearchName (p : Player) : String :=
  let fullName :=
    match p.full_name with
    | some s =>
      if s = "" then jsTrim ((p.first_name.getD "") ++ " " ++ (p.last_name.getD "")) else s
    | none => jsTrim ((p.first_name.getD "") ++ " " ++ (p.last_name.getD ""))
  jsToLower fullName

/-- A directory entry as stored in the search index (`processPlayerData`
augments each player with its search name; the ownership fields do not
enter the query contract and are omitted). -/
structure SearchPlayer extends Player where
  searchName : String
deriving DecidableEq, Repr

/-- `processPlayerData`: flatten `Object.values(players)` into the index. -/
def processPlayerData (players : PlayersMap) : List SearchPlayer :=
  (players.map Prod.snd).map fun p => { toPlayer := p, searchName := getPlayerSearchName p }

/-- `positionOrder[pos] || 7` with the table `QB:1, RB:2, WR:3, TE:4, K:5,
DEF:6` (the same table appears in `showSuggestions` and
`getBenchPlayers`). -/
def positionRank (pos : Option String) : Nat :=
  match pos with
  | some "QB" => 1
  | some "RB" => 2
  | some "WR" => 3
  | some "TE" => 4
  | some "K" => 5
  | some "DEF" => 6
  | _ => 7

/-- `name && name.toLowerCase().startsWith(queryLower)` for an optional
name field (absent or empty string is falsy). -/
def prefixMatch (name : Option String) (qLower : String) : Bool :=
  match name with
  | some s => if s = "" then false else jsStartsWith (jsToLower s) qLower
  | none => false

/-- `p.status === 'Active'`. -/
def isActive (p : SearchPlayer) : Bool := p.status == some "Active"

/-- The `showSuggestions` sort comparator: last-name prefix, full-name
prefix, first-name prefix, position priority, active status, then
alphabetical. -/
def suggestionCmp (qLower : String) (a b : SearchPlayer) : Int :=
  let aLastNameMatch := prefixMatch a.last_name qLower
  let bLastNameMatch := prefixMatch b.last_name qLower
  let aFirstNameMatch := prefixMatch a.first_name qLower
  let bFirstNameMatch := prefixMatch b.first_name qLower
  let aFullNameMatch := jsStartsWith a.searchName qLower
  let bFullNameMatch := jsStartsWith b.searchName qLower
  if aLastNameMatch && !bLastNameMatch then -1
  else if !aLastNameMatch && bLastNameMatch then 1
  else if aFullNameMatch && !bFullNameMatch then -1
  else if !aFullNameMatch && bFullNameMatch then 1
  else if aFirstNameMatch && !bFirstNameMatch then -1
  else if !aFirstNameMatch && bFirstNameMatch then 1
  else
    let posA := positionRank a.position
    let posB := positionRank b.position
    if posA ≠ posB then (posA : Int) - (posB : Int)
    else if isActive a && !(isActive b) then -1
    else if !(isActive a) && isActive b then 1
    else localeCompare a.searchName b.searchName

/-- `showSuggestions` (script.js): filter the index by substring containment
of the lower-cased query, sort by `suggestionCmp`, keep the first 20. -/
def showSuggestions (allPlayers : List SearchPlayer) (query : String) : List SearchPlayer :=
  let queryLower := jsToLower query
  ((allPlayers.filter fun p => (!(p.searchName == "")) && jsIncludes p.searchName queryLower)
      |>.insertionSort (fun a b => suggestionCmp queryLower a b ≤ 0)).take 20

/-- The search-input listener (`setupEventListeners`): trim the input; only
queries of length ≥ 2 reach `showSuggestions`, shorter ones hide the
suggestion list. -/
def handleSearchInput (allPlayers : List SearchPlayer) (value : String) : List SearchPlayer :=
  let query := jsTrim value
  if 2 ≤ query.length then showSuggestions allPlayers query else []

/-! ## Bench players (script.js `getBenchPlayers`) -/

/-- The bench sort comparator: position priority, then full name. -/
def benchCmp (a b : Player) : Int :=
  let aPos := positionRank a.position
  let bPos := positionRank b.position
  if aPos ≠ bPos then (aPos : Int) - (bPos : Int)
  else localeCompare (a.full_name.getD "") (b.full_name.getD "")

/-- `getBenchPlayers` (script.js): roster players not in the starters list,
resolved through the directory (missing entries dropped), sorted by
`benchCmp`. -/
def getBenchPlayers (roster : Roster) (allPlayers : PlayersMap) : List Player :=
  let starters := roster.starters
  let allRosterPlayers := roster.players
  (((allRosterPlayers.filter fun playerId => !(starters.contains playerId))
      |>.map fun playerId => allPlayers.lookup playerId)
      |>.filterMap id)
    |>.insertionSort (fun a b => benchCmp a b ≤ 0)

/-! ## Comparator infrastructure

JS `Array.prototype.sort` comparators compose priorities sequentially: the
first stage with a nonzero result decides.  `IsLexCmp` collects the laws
that make a comparator's `≤ 0` relation a total preorder, so that the
sorted output is characterised by `List.Pairwise`. -/

/-- Sequencing of comparator results: the first nonzero stage decides. -/
def thenCmp (c d : Int) : Int := if c ≠ 0 then c else d

/-- Boolean priority stage placing `true` before `false`. -/
def boolCmp (x y : Bool) : Int := if x && !y then -1 else if !x && y then 1 else 0

/-- Numeric stage `x - y` (as in `posA - posB`). -/
def natCmp (x y : Nat) : Int := if x ≠ y then (x : Int) - (y : Int) else 0

/-- Laws a comparator needs for lexicographic sequencing: its strict and
zero parts compose transitively and it is total. -/
structure IsLexCmp {α : Type} (c : α → α → Int) : Prop where
  lt_trans : ∀ {a b d : α}, c a b < 0 → c b d < 0 → c a d < 0
  lt_of_lt_of_eq : ∀ {a b d : α}, c a b < 0 → c b d = 0 → c a d < 0
  lt_of_eq_of_lt : ∀ {a b d : α}, c a b = 0 → c b d < 0 → c a d < 0
  eq_trans : ∀ {a b d : α}, c a b = 0 → c b d = 0 → c a d = 0
  eq_symm : ∀ {a b : α}, c a b = 0 → c b a = 0
  le_total : ∀ a b : α, c a b ≤ 0 ∨ c b a ≤ 0

/-! ## Concrete sample data used by counterexamples and witnesses -/

/-- A concrete draft record. -/
def demoDraft : Draft := { draft_id := "d1", status := "complete" }

/-- A concrete player-directory entry. -/
def demoPlayer : Player :=
  { player_id := "p1", first_name := some "Demo", last_name := some "Player",
    full_name := some "Demo Player", position := some "QB", team := some "FA",
    age := some 30, status := some "Active" }

/-- A second concrete player-directory entry. -/
def demoPlayerTwo : Player :=
  { player_id := "p2", first_name := some "Ben", last_name := some "Carter",
    full_name := some "Ben Carter", position := some "RB", team := some "SF",
    age := some 24, status := some "Active" }

/-- A concrete roster: three held players, one starter, one id ("p3")
missing from the directory. -/
def demoRoster : Roster :=
  { roster_id := 1, owner_id := "u1", players := ["p1", "p2", "p3"], starters := ["p1"] }

/-- A concrete two-entry player directory. -/
def demoDirectory : PlayersMap := [("p1", demoPlayer), ("p2", demoPlayerTwo)]

/-- Modelled from the claim's words (for comparison with the code): the
arithmetic mean of `age` over exactly those players with a known age. -/
def specMeanKnownAge (l : List Player) : ℚ :=
  ((l.filter fun p => p.age.isSome).map fun p => ((p.age.getD 0 : Nat) : ℚ)).sum /
    ((l.filter fun p => p.age.isSome).length : ℚ)

/-- Three players with known ages 25, 25 and 26. -/
def demoP25a : Player :=
  { player_id := "a25", first_name := some "Al", last_name := some "Adams",
    full_name := some "Al Adams", position := some "WR", team := some "KC",
    age := some 25, status := some "Active" }

def demoP25b : Player :=
  { player_id := "b25", first_name := some "Bo", last_name := some "Brown",
    full_name := some "Bo Brown", position := some "TE", team := some "DAL",
    age := some 25, status := some "Active" }

def demoP26 : Player :=
  { player_id := "c26", first_name := some "Cy", last_name := some "Cole",
    full_name := some "Cy Cole", position := some "RB", team := some "NYG",
    age := some 26, status := some "Active" }

/-- A team whose mean age 76/3 is not representable to one decimal. -/
def demoAgeTeam : List Player := [demoP25a, demoP25b, demoP26]

/-- A WR whose last name starts with "chase". -/
def jamarrChase : Player :=
  { player_id := "7564", first_name := some "Ja'Marr", last_name := some "Chase",
    full_name := some "Ja'Marr Chase", position := some "WR", team := some "CIN",
    age := some 25, status := some "Active" }

/-- Chase Young: a DE whose first name starts with "chase". -/
def chaseYoung : Player :=
  { player_id := "7588", first_name := some "Chase", last_name := some "Young",
    full_name := some "Chase Young", position := some "DE", team := some "NO",
    age := some 26, status := some "Active" }

/-- A directory holding exactly the two Chase players. -/
def chaseDirectory : PlayersMap := [("7564", jamarrChase), ("7588", chaseYoung)]

/-! ## Comparator and string-order lemmas -/

theorem IsLexCmp.le_trans {α : Type} {c : α → α → Int} (h : IsLexCmp c) {a b d : α}
    (h1 : c a b ≤ 0) (h2 : c b d ≤ 0) : c a d ≤ 0 := by
  rcases lt_or_eq_of_le h1 with hab | hab <;> rcases lt_or_eq_of_le h2 with hbd | hbd
  · exact le_of_lt (h.lt_trans hab hbd)
  · exact le_of_lt (h.lt_of_lt_of_eq hab hbd)
  · exact le_of_lt (h.lt_of_eq_of_lt hab hbd)
  · exact le_of_eq (h.eq_trans hab hbd)

theorem thenCmp_lt_iff (c d : Int) : thenCmp c d < 0 ↔ c < 0 ∨ (c = 0 ∧ d < 0) := by
  unfold thenCmp
  by_cases h : c = 0 <;> simp [h]

theorem thenCmp_zero_iff (c d : Int) : thenCmp c d = 0 ↔ c = 0 ∧ d = 0 := by
  unfold thenCmp
  by_cases h : c = 0 <;> simp [h]

theorem isLexCmp_thenCmp {α : Type} {p s : α → α → Int} (hp : IsLexCmp p) (hs : IsLexCmp s) :
    IsLexCmp (fun a b => thenCmp (p a b) (s a b)) := by
  refine ⟨?_, ?_, ?_, ?_, ?_, ?_⟩
  · intro a b d h1 h2
    rw [thenCmp_lt_iff] at h1 h2 ⊢
    rcases h1 with h1 | ⟨h1, h1s⟩ <;> rcases h2 with h2 | ⟨h2, h2s⟩
    · exact Or.inl (hp.lt_trans h1 h2)
    · exact Or.inl (hp.lt_of_lt_of_eq h1 h2)
    · exact Or.inl (hp.lt_of_eq_of_lt h1 h2)
    · exact Or.inr ⟨hp.eq_trans h1 h2, hs.lt_trans h1s h2s⟩
  · intro a b d h1 h2
    rw [thenCmp_lt_iff] at h1 ⊢
    rw [thenCmp_zero_iff] at h2
    rcases h1 with h1 | ⟨h1, h1s⟩
    · exact Or.inl (hp.lt_of_lt_of_eq h1 h2.1)
    · exact Or.inr ⟨hp.eq_trans h1 h2.1, hs.lt_of_lt_of_eq h1s h2.2⟩
  · intro a b d h1 h2
    rw [thenCmp_lt_iff] at h2 ⊢
    rw [thenCmp_zero_iff] at h1
    rcases h2 with h2 | ⟨h2, h2s⟩
    · exact Or.inl (hp.lt_of_eq_of_lt h1.1 h2)
    · exact Or.inr ⟨hp.eq_trans h1.1 h2, hs.lt_of_eq_of_lt h1.2 h2s⟩
  · intro a b d h1 h2
    rw [thenCmp_zero_iff] at h1 h2 ⊢
    exact ⟨hp.eq_trans h1.1 h2.1, hs.eq_trans h1.2 h2.2⟩
  · intro a b h1
    rw [thenCmp_zero_iff] at h1 ⊢
    exact ⟨hp.eq_symm h1.1, hs.eq_symm h1.2⟩
  · intro a b
    by_cases hz : p a b = 0
    · have hz2 := hp.eq_symm hz
      rcases hs.le_total a b with hsl | hsl
      · exact Or.inl (by rw [show thenCmp (p a b) (s a b) = s a b from by simp [thenCmp, hz]]; exact hsl)
      · exact Or.inr (by rw [show thenCmp (p b a) (s b a) = s b a from by simp [thenCmp, hz2]]; exact hsl)
    · rcases hp.le_total a b with hpl | hpl
      · have : p a b < 0 := lt_of_le_of_ne hpl hz
        exact Or.inl (le_of_lt ((thenCmp_lt_iff _ _).2 (Or.inl this)))
      · by_cases hz2 : p b a = 0
        · exact absurd (hp.eq_symm hz2) hz
        · have : p b a < 0 := lt_of_le_of_ne hpl hz2
          exact Or.inr (le_of_lt ((thenCmp_lt_iff _ _).2 (Or.inl this)))

theorem isLexCmp_boolCmp {α : Type} (f : α → Bool) :
    IsLexCmp (fun a b => boolCmp (f a) (f b)) := by
  refine ⟨?_, ?_, ?_, ?_, ?_, ?_⟩ <;> intro a b
  · intro d h1 h2
    cases hfa : f a <;> cases hfb : f b <;> cases hfd : f d <;>
      simp_all [boolCmp]
  · intro d h1 h2
    cases hfa : f a <;> cases hfb : f b <;> cases hfd : f d <;>
      simp_all [boolCmp]
  · intro d h1 h2
    cases hfa : f a <;> cases hfb : f b <;> cases hfd : f d <;>
      simp_all [boolCmp]
  · intro d h1 h2
    cases hfa : f a <;> cases hfb : f b <;> cases hfd : f d <;>
      simp_all [boolCmp]
  · intro h1
    cases hfa : f a <;> cases hfb : f b <;> simp_all [boolCmp]
  · cases hfa : f a <;> cases hfb : f b <;> simp [boolCmp, hfa, hfb]

theorem isLexCmp_natCmp {α : Type} (f : α → Nat) :
    IsLexCmp (fun a b => natCmp (f a) (f b)) := by
  refine ⟨?_, ?_, ?_, ?_, ?_, ?_⟩ <;> intro a b
  · intro d h1 h2
    simp only [natCmp] at h1 h2 ⊢
    split_ifs at h1 h2 ⊢ <;> omega
  · intro d h1 h2
    simp only [natCmp] at h1 h2 ⊢
    split_ifs at h1 h2 ⊢ <;> omega
  · intro d h1 h2
    simp only [natCmp] at h1 h2 ⊢
    split_ifs at h1 h2 ⊢ <;> omega
  · intro d h1 h2
    simp only [natCmp] at h1 h2 ⊢
    split_ifs at h1 h2 ⊢ <;> omega
  · intro h1
    simp only [natCmp] at h1 ⊢
    split_ifs at h1 ⊢ <;> omega
  · simp only [natCmp]
    split_ifs <;> omega

theorem charListLt_irrefl (l : List Char) : charListLt l l = false := by
  induction l with
  | nil => rfl
  | cons c cs ih => simp [charListLt, ih]

theorem charListLt_trans : ∀ {l₁ l₂ l₃ : List Char},
    charListLt l₁ l₂ = true → charListLt l₂ l₃ = true → charListLt l₁ l₃ = true := by
  intro l₁
  induction l₁ with
  | nil =>
    intro l₂ l₃ h1 h2
    cases l₂ with
    | nil => simp [charListLt] at h1
    | cons b bs =>
      cases l₃ with
      | nil => simp [charListLt] at h2
      | cons c cs => simp [charListLt]
  | cons a as ih =>
    intro l₂ l₃ h1 h2
    cases l₂ with
    | nil => simp [charListLt] at h1
    | cons b bs =>
      cases l₃ with
      | nil => simp [charListLt] at h2
      | cons c cs =>
        simp only [charListLt, Bool.or_eq_true, Bool.and_eq_true, decide_eq_true_eq,
          beq_iff_eq] at h1 h2 ⊢
        rcases h1 with h1 | ⟨he1, hr1⟩ <;> rcases h2 with h2 | ⟨he2, hr2⟩
        · exact Or.inl (by omega)
        · exact Or.inl (by omega)
        · exact Or.inl (by omega)
        · exact Or.inr ⟨by omega, ih hr1 hr2⟩

theorem charListLt_eq_of_not : ∀ {l₁ l₂ : List Char},
    charListLt l₁ l₂ = false → charListLt l₂ l₁ = false → l₁ = l₂ := by
  intro l₁
  induction l₁ with
  | nil =>
    intro l₂ h1 _
    cases l₂ with
    | nil => rfl
    | cons b bs => simp [charListLt] at h1
  | cons a as ih =>
    intro l₂ h1 h2
    cases l₂ with
    | nil => simp [charListLt] at h2
    | cons b bs =>
      simp only [charListLt, Bool.or_eq_false_iff, Bool.and_eq_false_iff,
        decide_eq_false_iff_not, beq_eq_false_iff_ne, ne_eq, not_lt] at h1 h2
      have hab : a.toNat = b.toNat := by
        rcases h1 with ⟨h1a, h1b⟩
        rcases h2 with ⟨h2a, h2b⟩
        omega
      have heq : a = b := Char.eq_of_val_eq (UInt32.ext hab)
      have htail : as = bs := by
        rcases h1 with ⟨h1a, h1b | h1b⟩
        · exact absurd hab h1b
        · rcases h2 with ⟨h2a, h2b | h2b⟩
          · exact absurd hab.symm h2b
          · exact ih h1b h2b
      rw [heq, htail]

theorem localeCompare_neg_iff (s t : String) :
    localeCompare s t < 0 ↔ charListLt s.data t.data = true := by
  unfold localeCompare
  split_ifs with h1 h2
  · norm_num [h1]
  · norm_num [h1]
  · norm_num [h1]

theorem localeCompare_zero_iff (s t : String) : localeCompare s t = 0 ↔ s.data = t.data := by
  unfold localeCompare
  split_ifs with h1 h2
  · constructor
    · intro h; exact absurd h (by norm_num)
    · intro hdata
      exfalso
      rw [hdata, charListLt_irrefl] at h1
      exact Bool.false_ne_true h1
  · constructor
    · intro h; exact absurd h (by norm_num)
    · intro hdata
      exfalso
      rw [hdata, charListLt_irrefl] at h2
      exact Bool.false_ne_true h2
  · constructor
    · intro _
      exact charListLt_eq_of_not (by simpa using h1) (by simpa using h2)
    · intro _; rfl

theorem isLexCmp_localeCompare {α : Type} (f : α → String) :
    IsLexCmp (fun a b => localeCompare (f a) (f b)) := by
  refine ⟨?_, ?_, ?_, ?_, ?_, ?_⟩
  · intro a b d h1 h2
    rw [localeCompare_neg_iff] at h1 h2 ⊢
    exact charListLt_trans h1 h2
  · intro a b d h1 h2
    rw [localeCompare_neg_iff] at h1 ⊢
    rw [localeCompare_zero_iff] at h2
    rw [← h2]
    exact h1
  · intro a b d h1 h2
    rw [localeCompare_zero_iff] at h1
    rw [localeCompare_neg_iff] at h2 ⊢
    rw [h1]
    exact h2
  · intro a b d h1 h2
    rw [localeCompare_zero_iff] at h1 h2 ⊢
    exact h1.trans h2
  · intro a b h1
    rw [localeCompare_zero_iff] at h1 ⊢
    exact h1.symm
  · intro a b
    by_cases h1 : charListLt (f a).data (f b).data = true
    · left; simp [localeCompare, h1]
    · by_cases h2 : charListLt (f b).data (f a).data = true
      · right; simp [localeCompare, h2]
      · left; simp [localeCompare, h1, h2]

theorem IsLexCmp.congr {α : Type} {c c2 : α → α → Int} (h : IsLexCmp c)
    (he : ∀ a b, c2 a b = c a b) : IsLexCmp c2 := by
  refine ⟨?_, ?_, ?_, ?_, ?_, ?_⟩
  · intro a b d h1 h2; rw [he] at h1 h2 ⊢; exact h.lt_trans h1 h2
  · intro a b d h1 h2; rw [he] at h1 h2 ⊢; exact h.lt_of_lt_of_eq h1 h2
  · intro a b d h1 h2; rw [he] at h1 h2 ⊢; exact h.lt_of_eq_of_lt h1 h2
  · intro a b d h1 h2; rw [he] at h1 h2 ⊢; exact h.eq_trans h1 h2
  · intro a b h1; rw [he] at h1 ⊢; exact h.eq_symm h1
  · intro a b; rw [he, he]; exact h.le_total a b

/-- A boolean priority stage of a JS comparator chain, in the shape the
source writes it, equals its `thenCmp` form. -/
theorem boolStage (x y : Bool) (rest : Int) :
    (if x && !y then -1 else if !x && y then 1 else rest) = thenCmp (boolCmp x y) rest := by
  cases x <;> cases y <;> simp [boolCmp, thenCmp]

/-- The numeric priority stage `posA - posB`, in the shape the source writes
it, equals its `thenCmp` form. -/
theorem posStage (pa pb : Nat) (rest : Int) :
    (if pa ≠ pb then ((pa : Int) - (pb : Int)) else rest) = thenCmp (natCmp pa pb) rest := by
  by_cases h : pa = pb
  · simp [natCmp, thenCmp, h]
  · have hne : (pa : Int) - (pb : Int) ≠ 0 := by
      intro hc; apply h; omega
    simp [natCmp, thenCmp, h, hne]

theorem benchCmp_eq_chain (a b : Player) :
    benchCmp a b = thenCmp (natCmp (positionRank a.position) (positionRank b.position))
      (localeCompare (a.full_name.getD "") (b.full_name.getD "")) := by
  unfold benchCmp thenCmp natCmp
  by_cases hpos : positionRank a.position = positionRank b.position
  · simp [hpos]
  · have hne : (positionRank a.position : Int) - (positionRank b.position : Int) ≠ 0 := by
      intro hc; apply hpos; omega
    simp [hpos, hne]

theorem isLexCmp_benchCmp : IsLexCmp benchCmp :=
  (isLexCmp_thenCmp (isLexCmp_natCmp fun p : Player => positionRank p.position)
    (isLexCmp_localeCompare fun p : Player => p.full_name.getD "")).congr benchCmp_eq_chain

theorem suggestionCmp_eq_chain (q : String) (a b : SearchPlayer) :
    suggestionCmp q a b =
      thenCmp (boolCmp (prefixMatch a.last_name q) (prefixMatch b.last_name q))
        (thenCmp (boolCmp (jsStartsWith a.searchName q) (jsStartsWith b.searchName q))
          (thenCmp (boolCmp (prefixMatch a.first_name q) (prefixMatch b.first_name q))
            (thenCmp (natCmp (positionRank a.position) (positionRank b.position))
              (thenCmp (boolCmp (isActive a) (isActive b))
                (localeCompare a.searchName b.searchName))))) := by
  unfold suggestionCmp
  dsimp only
  rw [boolStage, boolStage, boolStage, posStage, boolStage]

theorem isLexCmp_suggestionCmp (q : String) : IsLexCmp (suggestionCmp q) :=
  (isLexCmp_thenCmp (isLexCmp_boolCmp fun p : SearchPlayer => prefixMatch p.last_name q)
    (isLexCmp_thenCmp (isLexCmp_boolCmp fun p : SearchPlayer => jsStartsWith p.searchName q)
      (isLexCmp_thenCmp (isLexCmp_boolCmp fun p : SearchPlayer => prefixMatch p.first_name q)
        (isLexCmp_thenCmp (isLexCmp_natCmp fun p : SearchPlayer => positionRank p.position)
          (isLexCmp_thenCmp (isLexCmp_boolCmp fun p : SearchPlayer => isActive p)
            (isLexCmp_localeCompare fun p : SearchPlayer => p.searchName)))))).congr
    (suggestionCmp_eq_chain q)

/-- The `≤ 0` relation of a lawful comparator sorts into a pairwise-ordered
list. -/
theorem pairwise_insertionSort_cmpLe {α : Type} {c : α → α → Int} (h : IsLexCmp c)
    (l : List α) :
    (l.insertionSort fun a b => c a b ≤ 0).Pairwise fun a b => c a b ≤ 0 := by
  haveI : IsTotal α fun a b => c a b ≤ 0 := ⟨h.le_total⟩
  haveI : IsTrans α fun a b => c a b ≤ 0 := ⟨fun a b d h1 h2 => h.le_trans h1 h2⟩
  exact List.sorted_insertionSort _ l

/-- A successful association-list lookup returns a stored binding. -/
theorem lookup_mem {α β : Type} [BEq α] [LawfulBEq α] :
    ∀ {l : List (α × β)} {k : α} {v : β}, l.lookup k = some v → (k, v) ∈ l := by
  intro l
  induction l with
  | nil => intro k v h; simp [List.lookup] at h
  | cons kv rest ih =>
    intro k v h
    obtain ⟨a, b⟩ := kv
    rw [List.lookup] at h
    cases hbeq : (k == a) with
    | false => rw [hbeq] at h; exact List.mem_cons_of_mem _ (ih h)
    | true =>
      rw [hbeq] at h
      have ha : k = a := eq_of_beq hbeq
      have hb : b = v := by injection h
      subst ha; subst hb
      exact List.mem_cons_self _ _

/-- Folding addition of `f` over a list from `init` is `init` plus the sum
of the mapped list. -/
theorem foldl_add_eq_sum {α : Type} (f : α → ℚ) :
    ∀ (l : List α) (init : ℚ), l.foldl (fun s x => s + f x) init = init + (l.map f).sum := by
  intro l
  induction l with
  | nil => intro init; simp
  | cons x xs ih =>
    intro init
    simp only [List.foldl_cons, List.map_cons, List.sum_cons, ih]
    ring

/-! ## C9 — fetchAllRecentTransactions -/

/-- C9: the recent-transactions aggregate is a permutation of exactly the
week 0–10 results, sorted non-increasingly by `created`; a transaction is in
the result iff some week in 0–10 produced it, and if every week fails (or is
empty) the result is empty. -/
theorem fetchAllRecentTransactions_spec (net : Nat → FetchOutcome (List Transaction)) :
    (fetchAllRecentTransactions net).Perm
        (((List.range 11).map fun w => fetchTransactions w (net w)).flatten) ∧
    (fetchAllRecentTransactions net).Pairwise (fun a b => b.created ≤ a.created) ∧
    (∀ t, t ∈ fetchAllRecentTransactions net ↔
        ∃ w, w < 11 ∧ t ∈ fetchTransactions w (net w)) ∧
    ((∀ w, w < 11 → fetchTransactions w (net w) = []) → fetchAllRecentTransactions net = []) := by
  have hperm : (fetchAllRecentTransactions net).Perm
      (((List.range 11).map fun w => fetchTransactions w (net w)).flatten) :=
    List.perm_insertionSort _ _
  refine ⟨hperm, ?_, ?_, ?_⟩
  · haveI : IsTotal Transaction fun a b => b.created ≤ a.created := ⟨fun a b => le_total _ _⟩
    haveI : IsTrans Transaction fun a b => b.created ≤ a.created :=
      ⟨fun a b d h1 h2 => le_trans h2 h1⟩
    exact List.sorted_insertionSort _ _
  · intro t
    rw [hperm.mem_iff]
    simp only [List.mem_flatten, List.mem_map, List.mem_range]
    constructor
    · rintro ⟨l, ⟨w, hw, rfl⟩, ht⟩
      exact ⟨w, hw, ht⟩
    · rintro ⟨w, hw, ht⟩
      exact ⟨_, ⟨w, hw, rfl⟩, ht⟩
  · intro hall
    have hflat : (((List.range 11).map fun w => fetchTransactions w (net w)).flatten) = [] := by
      rw [List.flatten_eq_nil_iff]
      rintro l hl
      rw [List.mem_map] at hl
      obtain ⟨w, hw, rfl⟩ := hl
      exact hall w (List.mem_range.1 hw)
    have hdef : fetchAllRecentTransactions net =
        (((List.range 11).map fun w => fetchTransactions w (net w)).flatten).insertionSort
          (fun a b => b.created ≤ a.created) := rfl
    rw [hdef, hflat]
    rfl

/-- Witness for C9 at the all-weeks-failing input. -/
theorem fetchAllRecentTransactions_spec_witness :
    fetchAllRecentTransactions (fun _ => FetchOutcome.netError) = [] :=
  (fetchAllRecentTransactions_spec (fun _ => FetchOutcome.netError)).2.2.2 (fun _ _ => rfl)

/-! ## C1 — Gateway failure handling -/

/-- C1 counterexample: `fetchDraftDetails` does not inspect `response.ok`,
so on an HTTP non-2xx response whose body still parses to a draft object it
returns that object, not the `null` fallback the claim requires for every
failing execution. -/
theorem gateway_claim_counterexample :
    fetchDraftDetails (some "d1") (.response false (some demoDraft)) = some demoDraft ∧
    some demoDraft ≠ (none : Option Draft) := by
  exact ⟨rfl, by decide⟩

/-- C1 (amended): every Gateway operation returns its typed empty fallback
on a network failure and on a JSON parse failure; the seven operations that
check `response.ok` (league, rosters, users, matchups, transactions, player
directory, news) also return it on an HTTP non-2xx response, but the draft
and draft-picks operations ignore the HTTP status and return whatever the
body parsed to. -/
theorem gateway_failure_fallbacks :
    (fetchLeagueDetails .netError = none ∧
      (∀ body, fetchLeagueDetails (.response false body) = none) ∧
      fetchLeagueDetails (.response true none) = none) ∧
    (fetchRosters .netError = [] ∧
      (∀ body, fetchRosters (.response false body) = []) ∧
      fetchRosters (.response true none) = []) ∧
    (fetchUsers .netError = [] ∧
      (∀ body, fetchUsers (.response false body) = []) ∧
      fetchUsers (.response true none) = []) ∧
    (∀ week, fetchMatchups week .netError = [] ∧
      (∀ body, fetchMatchups week (.response false body) = []) ∧
      fetchMatchups week (.response true none) = []) ∧
    (∀ week, fetchTransactions week .netError = [] ∧
      (∀ body, fetchTransactions week (.response false body) = []) ∧
      fetchTransactions week (.response true none) = []) ∧
    (fetchAllPlayersNetwork .netError = [] ∧
      (∀ body, fetchAllPlayersNetwork (.response false body) = []) ∧
      fetchAllPlayersNetwork (.response true none) = []) ∧
    (fetchNewsNetwork .netError = [] ∧
      (∀ body, fetchNewsNetwork (.response false body) = []) ∧
      fetchNewsNetwork (.response true none) = []) ∧
    (∀ draftId, fetchDraftDetails (some draftId) .netError = none ∧
      fetchDraftDetails (some draftId) (.response true none) = none ∧
      (∀ ok body, fetchDraftDetails (some draftId) (.response ok body) = body)) ∧
    (∀ draftId, fetchDraftPicks (some draftId) .netError = [] ∧
      fetchDraftPicks (some draftId) (.response true none) = [] ∧
      (∀ ok picks, fetchDraftPicks (some draftId) (.response ok (some picks)) = picks)) := by
  refine ⟨⟨rfl, fun _ => rfl, rfl⟩, ⟨rfl, fun _ => rfl, rfl⟩, ⟨rfl, fun _ => rfl, rfl⟩,
    fun _ => ⟨rfl, fun _ => rfl, rfl⟩, fun _ => ⟨rfl, fun _ => rfl, rfl⟩,
    ⟨rfl, fun _ => rfl, rfl⟩, ⟨rfl, fun _ => rfl, rfl⟩,
    fun _ => ⟨rfl, rfl, fun _ _ => rfl⟩, fun _ => ⟨rfl, rfl, fun _ _ => rfl⟩⟩

/-! ## C2 — Cached fetch policy on empty-but-fresh payloads -/

/-- C2 counterexample: with a fresh timestamp and a present-but-empty cached
payload (`\x7b\x7d` for players, `[]` for news) the policy returns the empty
payload as a cache hit and performs no network fetch, because an empty
object or array is truthy in `if (cachedData)`. -/
theorem cache_empty_hit_counterexample :
    fetchAllPlayers 1000000 (some 999999) (some [])
        (.response true (some [("p1", demoPlayer)])) = ([], false) ∧
    fetchNews 1000000 (some 999999) (some [])
        (.response true (some [{ headline := "h" }])) = ([], false) ∧
    ¬ ((fetchAllPlayers 1000000 (some 999999) (some [])
        (.response true (some [("p1", demoPlayer)]))).2 = true) := by
  exact ⟨rfl, rfl, by decide⟩

/-- C2 (amended): with a fresh timestamp the policy returns any present
cached payload — empty or not — as a cache hit without fetching; a fresh
network fetch happens only when the cached data payload is absent. -/
theorem cachedFetch_policy (now ts : Nat) (d : PlayersMap) (arts : List Article)
    (netP : FetchOutcome PlayersMap) (netN : FetchOutcome (List Article))
    (hfreshP : now - ts < playersCacheDuration) (hfreshN : now - ts < newsCacheDuration) :
    fetchAllPlayers now (some ts) (some d) netP = (d, false) ∧
    fetchAllPlayers now (some ts) none netP = (fetchAllPlayersNetwork netP, true) ∧
    fetchNews now (some ts) (some arts) netN = (arts, false) ∧
    fetchNews now (some ts) none netN = (fetchNewsNetwork netN, true) := by
  simp [fetchAllPlayers, fetchNews, hfreshP, hfreshN]

/-- Witness for the amended C2 theorem at a concrete fresh cache state. -/
theorem cachedFetch_policy_witness :
    fetchAllPlayers 1000 (some 500) (some [("p1", demoPlayer)]) .netError
      = ([("p1", demoPlayer)], false) :=
  (cachedFetch_policy 1000 500 [("p1", demoPlayer)] [] .netError .netError
    (by decide) (by decide)).1

/-! ## C5 — Win percentage bounds -/

/-- C5: the standings win-percentage always lies in [0, 1] and is exactly 0
for a roster with no games played. -/
theorem winPct_bounds (wins losses ties : Nat) :
    0 ≤ winPct wins losses ties ∧ winPct wins losses ties ≤ 1 ∧ winPct 0 0 0 = 0 := by
  refine ⟨?_, ?_, by norm_num [winPct]⟩
  · unfold winPct
    dsimp only
    split_ifs with h
    · apply div_nonneg <;> positivity
    · norm_num
  · unfold winPct
    dsimp only
    split_ifs with h
    · apply div_le_one_of_le₀
      · push_cast
        have ht : (ties : ℚ) * (1/2) ≤ (ties : ℚ) := by
          have : (0 : ℚ) ≤ (ties : ℚ) := by positivity
          linarith
        linarith
      · positivity
    · norm_num

/-! ## C7 — Age bucket classification -/

/-- C7 counterexample: the JS guard `!age` is true for the number 0, so a
present age of 0 is classified `unknown`, while the claim requires `young`
for every age ≤ 24. -/
theorem ageCategory_zero_counterexample :
    getAgeCategory (some 0) = AgeCategory.unknown ∧
    AgeCategory.unknown ≠ AgeCategory.young := by decide

/-- C7 (amended): for every positive age the classification follows the four
bands (≤24 young, 25–28 prime, 29–31 veteran, ≥32 old); a missing age — and
the falsy age 0 — is `unknown`; colors and labels are functions of the
category alone. -/
theorem getAgeCategory_spec (a : Nat) (h : 0 < a) :
    getAgeCategory (some a) =
      (if a ≤ 24 then AgeCategory.young else if a ≤ 28 then AgeCategory.prime
       else if a ≤ 31 then AgeCategory.veteran else AgeCategory.old) ∧
    getAgeCategory none = AgeCategory.unknown ∧
    getAgeCategory (some 0) = AgeCategory.unknown ∧
    (∀ age₁ age₂ : Option Nat, getAgeCategory age₁ = getAgeCategory age₂ →
      getAgeCategoryColor age₁ = getAgeCategoryColor age₂ ∧
      getAgeCategoryLabel age₁ = getAgeCategoryLabel age₂) := by
  refine ⟨?_, rfl, rfl, ?_⟩
  · have h0 : ¬ (a = 0) := by omega
    simp only [getAgeCategory, h0, if_false]
    split_ifs <;> first | rfl | omega
  · intro age₁ age₂ hcat
    unfold getAgeCategoryColor getAgeCategoryLabel
    rw [hcat]
    exact ⟨rfl, rfl⟩

/-- Witness for the amended C7 theorem at the band boundary 24. -/
theorem getAgeCategory_spec_witness :
    getAgeCategory (some 24) = AgeCategory.young := by
  have h := (getAgeCategory_spec 24 (by decide)).1
  simpa using h

/-! ## C8 — Proxy handler failure statuses -/

/-- C8 counterexample: an upstream 503 makes the proxy respond 500 (the only
catch block), not a 502-equivalent passthrough status. -/
theorem handler_counterexample :
    (handler "GET" ⟨none, 0⟩ 1000 (.httpResponse 503 none)).1 = (500, ProxyBody.errorBody) ∧
    (500 : Nat) ≠ 502 ∧ (500 : Nat) ≠ 503 := by decide

/-- C8 (amended): on a cache miss, every failing upstream execution — HTTP
non-2xx, network failure, or JSON parse failure — makes the handler respond
500 with the JSON error body; no status is passed through. -/
theorem handler_failure_500 (st : ProxyState) (now : Nat) (u : UpstreamOutcome)
    (hmiss : ¬ (st.cachedPlayers.isSome ∧ now - st.lastFetchTimestamp < playersCacheDuration))
    (hfail : u = .netError ∨
      ∃ status body, u = .httpResponse status body ∧ (statusOk status = false ∨ body = none)) :
    (handler "GET" st now u).1 = (500, ProxyBody.errorBody) := by
  have hget : ¬ (("GET" : String) = "OPTIONS") := by decide
  rcases hfail with hu | ⟨status, body, hu, hsb⟩
  · subst hu
    simp [handler, hget, hmiss]
  · subst hu
    rcases hsb with hs | hb
    · simp [handler, hget, hmiss, hs]
    · subst hb
      simp only [handler, if_neg hget, if_neg hmiss]
      split_ifs <;> rfl

/-- Witness for the amended C8 theorem: empty cache, network failure. -/
theorem handler_failure_500_witness :
    (handler "GET" ⟨none, 0⟩ 5 UpstreamOutcome.netError).1 = (500, ProxyBody.errorBody) :=
  handler_failure_500 ⟨none, 0⟩ 5 .netError (by decide) (Or.inl rfl)

/-! ## C10 — getBenchPlayers -/

/-- C10: for a roster whose held-player list has no duplicates and a
directory whose entries carry their own key as `player_id`, the bench is a
permutation of exactly the held players outside the starters list that
resolve in the directory; every bench player is held, is not a starter and
resolves to itself; no bench player appears twice; and the list is sorted by
position priority then full name. -/
theorem getBenchPlayers_spec (roster : Roster) (allPlayers : PlayersMap)
    (hnd : roster.players.Nodup)
    (hwf : ∀ kv ∈ allPlayers, (kv.2).player_id = kv.1) :
    (getBenchPlayers roster allPlayers).Perm
        ((roster.players.filter fun pid => !(roster.starters.contains pid)).filterMap
          fun pid => allPlayers.lookup pid) ∧
    (∀ p ∈ getBenchPlayers roster allPlayers,
        p.player_id ∈ roster.players ∧ p.player_id ∉ roster.starters ∧
        allPlayers.lookup p.player_id = some p) ∧
    (getBenchPlayers roster allPlayers).Nodup ∧
    (getBenchPlayers roster allPlayers).Pairwise (fun a b => benchCmp a b ≤ 0) := by
  have hid : ∀ pid p, allPlayers.lookup pid = some p → p.player_id = pid := by
    intro pid p h
    exact hwf (pid, p) (lookup_mem h)
  have hbase :
      (((roster.players.filter fun pid => !(roster.starters.contains pid)).map
          fun pid => allPlayers.lookup pid).filterMap id) =
        ((roster.players.filter fun pid => !(roster.starters.contains pid)).filterMap
          fun pid => allPlayers.lookup pid) := by
    rw [List.filterMap_map]
    rfl
  have hperm : (getBenchPlayers roster allPlayers).Perm
      ((roster.players.filter fun pid => !(roster.starters.contains pid)).filterMap
        fun pid => allPlayers.lookup pid) := by
    rw [← hbase]
    exact List.perm_insertionSort _ _
  refine ⟨hperm, ?_, ?_, ?_⟩
  · intro p hp
    have hp2 := hperm.mem_iff.1 hp
    rw [List.mem_filterMap] at hp2
    obtain ⟨pid, hpidmem, hlook⟩ := hp2
    rw [List.mem_filter] at hpidmem
    obtain ⟨hmem, hcond⟩ := hpidmem
    have hpid := hid pid p hlook
    rw [hpid]
    refine ⟨hmem, ?_, hlook⟩
    simpa using hcond
  · rw [hperm.nodup_iff]
    refine List.Nodup.filterMap ?_ (hnd.filter _)
    intro a a2 b hb hb2
    rw [Option.mem_def] at hb hb2
    rw [← hid a b hb, ← hid a2 b hb2]
  · exact pairwise_insertionSort_cmpLe isLexCmp_benchCmp _

/-- Witness for C10 at a concrete roster and directory. -/
theorem getBenchPlayers_spec_witness :
    (getBenchPlayers demoRoster demoDirectory).Nodup :=
  (getBenchPlayers_spec demoRoster demoDirectory (by decide) (by decide)).2.2.1

/-! ## C6 — Team average age -/

/-- C6 counterexample: for known ages 25, 25, 26 the code returns the mean
rounded to one decimal (25.3), which differs from the arithmetic mean 76/3
the claim asserts as an exact equality. -/
theorem averageAge_counterexample :
    calculateTeamAverageAge demoAgeTeam = some (253/10) ∧
    specMeanKnownAge demoAgeTeam = 76/3 ∧
    (253/10 : ℚ) ≠ 76/3 := by
  refine ⟨?_, ?_, by norm_num⟩
  · norm_num [calculateTeamAverageAge, demoAgeTeam, demoP25a, demoP25b, demoP26, jsRound,
      List.filter, List.foldl]
  · norm_num [specMeanKnownAge, demoAgeTeam, demoP25a, demoP25b, demoP26, List.filter]

/-- C6 (amended): for a team whose known ages are all nonzero, the result is
the `N/A` sentinel exactly when no player has a known age; otherwise it is
the arithmetic mean over exactly the known-age players rounded to one
decimal place, hence within 1/20 of that mean. -/
theorem calculateTeamAverageAge_spec (l : List Player)
    (hpos : ∀ p ∈ l, p.age ≠ some 0) :
    (calculateTeamAverageAge l = none ↔ (l.filter fun p => p.age.isSome) = []) ∧
    (∀ r, calculateTeamAverageAge l = some r →
      r = (jsRound (specMeanKnownAge l * 10) : ℚ) / 10 ∧
      |r - specMeanKnownAge l| ≤ 1/20) := by
  have hfe : (l.filter fun p => match p.age with | some a => decide (a ≠ 0) | none => false)
      = l.filter fun p => p.age.isSome := by
    apply List.filter_congr
    intro p hp
    cases hage : p.age with
    | none => simp
    | some a =>
      have ha : a ≠ 0 := by
        intro h0
        exact hpos p hp (by rw [hage, h0])
      simp [ha]
  constructor
  · simp only [calculateTeamAverageAge, hfe]
    split_ifs with hlen
    · simp [List.length_eq_zero.1 hlen]
    · constructor
      · intro h; exact absurd h (by simp)
      · intro h
        exact absurd (by rw [h]; rfl) hlen
  · intro r hr
    simp only [calculateTeamAverageAge, hfe] at hr
    split_ifs at hr with hlen
    have hfold := foldl_add_eq_sum (fun p : Player => ((p.age.getD 0 : Nat) : ℚ))
      (l.filter fun p => p.age.isSome) 0
    rw [zero_add] at hfold
    have hval : (jsRound
        ((((l.filter fun p => p.age.isSome).map
            fun p => ((p.age.getD 0 : Nat) : ℚ)).sum /
          (((l.filter fun p => p.age.isSome).length : Nat) : ℚ)) * 10) : ℚ) / 10 = r := by
      rw [← hfold]
      exact Option.some.inj hr
    have hmean : ((l.filter fun p => p.age.isSome).map
            fun p => ((p.age.getD 0 : Nat) : ℚ)).sum /
          (((l.filter fun p => p.age.isSome).length : Nat) : ℚ) = specMeanKnownAge l := rfl
    rw [hmean] at hval
    refine ⟨hval.symm, ?_⟩
    rw [← hval]
    have h1 := Int.floor_le (specMeanKnownAge l * 10 + 1/2)
    have h2 := Int.lt_floor_add_one (specMeanKnownAge l * 10 + 1/2)
    rw [abs_le]
    unfold jsRound
    constructor <;> [linarith; linarith]

/-- Witness for the amended C6 theorem at a one-player team. -/
theorem calculateTeamAverageAge_spec_witness :
    calculateTeamAverageAge [demoPlayer] = none ↔
      ([demoPlayer].filter fun p => p.age.isSome) = [] :=
  (calculateTeamAverageAge_spec [demoPlayer] (by decide)).1

/-! ## C3 — Picks-by-round round trip -/

/-- The round number grows monotonically with the pick number. -/
theorem pickRound_mono (numTeams : Nat) {a b : DraftPick} (h : a.pick_no ≤ b.pick_no) :
    pickRound numTeams a ≤ pickRound numTeams b := by
  unfold pickRound
  exact Nat.div_le_div_right (Nat.sub_le_sub_right (Nat.add_le_add_right h _) 1)

/-- Inserting a pick whose round is at least every existing round key keeps
the keys strictly increasing, appends the pick at the end of the flattened
groups, and adds at most the new key. -/
theorem insertPick_spec :
    ∀ (m : List (Nat × List DraftPick)) (r : Nat) (p : DraftPick),
      (m.map Prod.fst).Pairwise (· < ·) →
      (∀ k ∈ m.map Prod.fst, k ≤ r) →
      ((insertPick m r p).map Prod.fst).Pairwise (· < ·) ∧
      ((insertPick m r p).map Prod.snd).flatten = (m.map Prod.snd).flatten ++ [p] ∧
      (∀ k ∈ (insertPick m r p).map Prod.fst, k ∈ m.map Prod.fst ∨ k = r) := by
  intro m
  induction m with
  | nil =>
    intro r p _ _
    refine ⟨by simp [insertPick], by simp [insertPick], by simp [insertPick]⟩
  | cons kv rest ih =>
    intro r p hpw hle
    obtain ⟨k, ps⟩ := kv
    rw [List.map_cons] at hpw
    have hpwc := List.pairwise_cons.1 hpw
    by_cases hk : k = r
    · subst hk
      have hrest : rest = [] := by
        cases hrest : rest with
        | nil => rfl
        | cons kv2 rest2 =>
          exfalso
          obtain ⟨k2, ps2⟩ := kv2
          have hklt : k < k2 := hpwc.1 k2 (by rw [hrest]; simp)
          have hkle : k2 ≤ k := hle k2 (by rw [hrest]; simp)
          omega
      subst hrest
      refine ⟨by simp [insertPick], by simp [insertPick], by simp [insertPick]⟩
    · have hpw2 : (rest.map Prod.fst).Pairwise (· < ·) := hpwc.2
      have hle2 : ∀ k2 ∈ rest.map Prod.fst, k2 ≤ r := fun k2 hk2 => hle k2 (by simp [hk2])
      obtain ⟨ih1, ih2, ih3⟩ := ih r p hpw2 hle2
      refine ⟨?_, ?_, ?_⟩
      · simp only [insertPick, if_neg hk, List.map_cons]
        rw [List.pairwise_cons]
        refine ⟨?_, ih1⟩
        intro k2 hk2
        rcases ih3 k2 hk2 with hmem | rfl
        · exact hpwc.1 k2 hmem
        · exact lt_of_le_of_ne (hle k (by simp)) hk
      · simp only [insertPick, if_neg hk, List.map_cons, List.flatten_cons]
        rw [ih2, List.append_assoc]
      · intro k2 hk2
        simp only [insertPick, if_neg hk, List.map_cons, List.mem_cons] at hk2 ⊢
        rcases hk2 with rfl | hk2
        · exact Or.inl (Or.inl rfl)
        · rcases ih3 k2 hk2 with hmem | rfl
          · exact Or.inl (Or.inr hmem)
          · exact Or.inr rfl

/-- Folding a round-monotone pick list into the round map keeps keys
strictly increasing and appends the picks in order. -/
theorem foldl_insertPick (numTeams : Nat) :
    ∀ (l : List DraftPick) (m : List (Nat × List DraftPick)),
      (m.map Prod.fst).Pairwise (· < ·) →
      (∀ k ∈ m.map Prod.fst, ∀ p ∈ l, k ≤ pickRound numTeams p) →
      l.Pairwise (fun p q => pickRound numTeams p ≤ pickRound numTeams q) →
      (((l.foldl (fun m2 p => insertPick m2 (pickRound numTeams p) p) m).map
          Prod.fst).Pairwise (· < ·)) ∧
      ((l.foldl (fun m2 p => insertPick m2 (pickRound numTeams p) p) m).map
          Prod.snd).flatten = (m.map Prod.snd).flatten ++ l := by
  intro l
  induction l with
  | nil =>
    intro m h1 _ _
    exact ⟨h1, by simp⟩
  | cons p l ih =>
    intro m h1 h2 h3
    simp only [List.foldl_cons]
    obtain ⟨s1, s2, s3⟩ := insertPick_spec m (pickRound numTeams p) p h1
      (fun k hk => h2 k hk p (List.mem_cons_self _ _))
    have h2b : ∀ k ∈ (insertPick m (pickRound numTeams p) p).map Prod.fst,
        ∀ q ∈ l, k ≤ pickRound numTeams q := by
      intro k hk q hq
      rcases s3 k hk with hmem | rfl
      · exact h2 k hmem q (List.mem_cons_of_mem _ hq)
      · exact (List.pairwise_cons.1 h3).1 q hq
    obtain ⟨f1, f2⟩ := ih (insertPick m (pickRound numTeams p) p) s1 h2b
      (List.pairwise_cons.1 h3).2
    refine ⟨f1, ?_⟩
    rw [f2, s2]
    simp

/-- Rendering a round map by looking up each of its own keys in order
reproduces the concatenation of its groups. -/
theorem flatMap_lookup_self :
    ∀ (m : List (Nat × List DraftPick)), (m.map Prod.fst).Nodup →
      ((m.map Prod.fst).flatMap fun r => (m.lookup r).getD []) =
        (m.map Prod.snd).flatten := by
  intro m
  induction m with
  | nil => intro _; rfl
  | cons kv rest ih =>
    intro hnd
    obtain ⟨k, ps⟩ := kv
    rw [List.map_cons] at hnd
    have hndc := List.nodup_cons.1 hnd
    simp only [List.map_cons, List.flatMap_cons, List.flatten_cons]
    have hk : (((k, ps) :: rest).lookup k).getD [] = ps := by simp [List.lookup]
    have hcong : (rest.map Prod.fst).flatMap (fun r => (((k, ps) :: rest).lookup r).getD []) =
        (rest.map Prod.fst).flatMap (fun r => (rest.lookup r).getD []) := by
      apply List.flatMap_congr
      intro r hr
      have hne : r ≠ k := by
        intro h
        subst h
        exact hndc.1 hr
      simp [List.lookup, beq_eq_false_iff_ne.2 hne]
    rw [hk, hcong, ih hndc.2]

/-- C3: grouping draft picks by `ceil(pick_no / numTeams)`, sorting the
round keys ascending and the picks within a round by `pick_no`, then
flattening, reproduces exactly the picks sorted by `pick_no` — a
permutation of the input, nothing dropped or duplicated. -/
theorem picksByRound_roundtrip (numTeams : Nat) (picks : List DraftPick)
    (_hn : 0 < numTeams) (_hnodup : (picks.map DraftPick.pick_no).Nodup) :
    playersByRoundOrder numTeams picks = sortByPickNo picks ∧
    (playersByRoundOrder numTeams picks).Perm picks := by
  have hsorted : (sortByPickNo picks).Pairwise
      (fun a b : DraftPick => a.pick_no ≤ b.pick_no) := by
    haveI : IsTotal DraftPick (fun a b : DraftPick => a.pick_no ≤ b.pick_no) :=
      ⟨fun a b => Nat.le_total _ _⟩
    haveI : IsTrans DraftPick (fun a b : DraftPick => a.pick_no ≤ b.pick_no) :=
      ⟨fun _ _ _ h1 h2 => le_trans h1 h2⟩
    exact List.sorted_insertionSort _ _
  have hrounds : (sortByPickNo picks).Pairwise
      (fun p q => pickRound numTeams p ≤ pickRound numTeams q) :=
    hsorted.imp (fun h => pickRound_mono numTeams h)
  obtain ⟨hkeys, hflat⟩ := foldl_insertPick numTeams (sortByPickNo picks) []
    (by simp) (by simp) hrounds
  have hm : picksByRound numTeams picks =
      (sortByPickNo picks).foldl (fun m p => insertPick m (pickRound numTeams p) p) [] := rfl
  have hkeyslt : ((picksByRound numTeams picks).map Prod.fst).Pairwise (· < ·) := by
    rw [hm]; exact hkeys
  have hkeysle : List.Sorted (fun a b : Nat => a ≤ b)
      ((picksByRound numTeams picks).map Prod.fst) :=
    hkeyslt.imp le_of_lt
  have hkeysnd : ((picksByRound numTeams picks).map Prod.fst).Nodup :=
    hkeyslt.imp ne_of_lt
  have heq : playersByRoundOrder numTeams picks = sortByPickNo picks := by
    unfold playersByRoundOrder
    dsimp only
    rw [List.Sorted.insertionSort_eq hkeysle, flatMap_lookup_self _ hkeysnd, hm, hflat]
    simp
  exact ⟨heq, heq ▸ List.perm_insertionSort _ picks⟩

/-- Witness for C3 at three concrete out-of-order picks and two teams. -/
theorem picksByRound_roundtrip_witness :
    playersByRoundOrder 2 [⟨3, 1, "x3"⟩, ⟨1, 2, "x1"⟩, ⟨2, 3, "x2"⟩] =
      sortByPickNo [⟨3, 1, "x3"⟩, ⟨1, 2, "x1"⟩, ⟨2, 3, "x2"⟩] :=
  (picksByRound_roundtrip 2 [⟨3, 1, "x3"⟩, ⟨1, 2, "x1"⟩, ⟨2, 3, "x2"⟩]
    (by decide) (by decide)).1

/-! ## C4 — Player search suggestions -/

/-- C4: for a trimmed query of length ≥ 2 the suggestions are drawn from the
index, each containing the lower-cased query in its search name, ordered by
the comparator chain (last-name prefix, full-name prefix, first-name prefix,
position priority, active status, alphabetical) and capped at 20; a query
shorter than 2 yields no suggestions; and over a directory holding Ja'Marr
Chase (WR) and Chase Young (DE), the query "chase" ranks Ja'Marr Chase
first. -/
theorem showSuggestions_spec (allPlayers : List SearchPlayer) (value : String)
    (hq : 2 ≤ (jsTrim value).length) :
    (handleSearchInput allPlayers value).length ≤ 20 ∧
    (∀ p ∈ handleSearchInput allPlayers value,
        p ∈ allPlayers ∧ jsIncludes p.searchName (jsToLower (jsTrim value)) = true) ∧
    (handleSearchInput allPlayers value).Pairwise
        (fun a b => suggestionCmp (jsToLower (jsTrim value)) a b ≤ 0) ∧
    (∀ w : String, (jsTrim w).length < 2 → handleSearchInput allPlayers w = []) ∧
    handleSearchInput (processPlayerData chaseDirectory) "chase" =
      [{ toPlayer := jamarrChase, searchName := getPlayerSearchName jamarrChase },
       { toPlayer := chaseYoung, searchName := getPlayerSearchName chaseYoung }] := by
  have hdef : handleSearchInput allPlayers value = showSuggestions allPlayers (jsTrim value) := by
    unfold handleSearchInput
    rw [if_pos hq]
  refine ⟨?_, ?_, ?_, ?_, ?_⟩
  · rw [hdef]
    unfold showSuggestions
    exact List.length_take_le _ _
  · intro p hp
    rw [hdef] at hp
    unfold showSuggestions at hp
    have hp2 := List.mem_of_mem_take hp
    have hp3 := (List.perm_insertionSort _ _).mem_iff.1 hp2
    rw [List.mem_filter] at hp3
    obtain ⟨hmem, hcond⟩ := hp3
    rw [Bool.and_eq_true] at hcond
    exact ⟨hmem, hcond.2⟩
  · rw [hdef]
    unfold showSuggestions
    exact List.Pairwise.sublist (List.take_sublist _ _)
      (pairwise_insertionSort_cmpLe (isLexCmp_suggestionCmp _) _)
  · intro w hw
    unfold handleSearchInput
    rw [if_neg (by omega)]
  · decide

/-- Witness for C4 at the concrete two-player directory and query. -/
theorem showSuggestions_spec_witness :
    (handleSearchInput (processPlayerData chaseDirectory) "chase").length ≤ 20 :=
  (showSuggestions_spec (processPlayerData chaseDirectory) "chase" (by decide)).1

end Sleeper
